import Mathlib

/-!
Verification of the component registry and option-merging core
(src/model/Component.ts) against its specification.

The JSON-like option values handled by the merge engine are embedded as an
inductive type; plain objects are association lists of string keys, in
insertion order, mirroring JavaScript property ordering.
-/

set_option maxHeartbeats 1000000

/-- JSON-like value: undefined, number, string, array, or plain object.
Objects are key/value association lists in property-insertion order. -/
inductive JValue : Type where
  | undef : JValue
  | num : Int → JValue
  | str : String → JValue
  | arr : List JValue → JValue
  | obj : List (String × JValue) → JValue

/-- A plain JavaScript object: association list of fields in insertion order. -/
abbrev JObj := List (String × JValue)

/-- Whether a value is a plain object (the only case the deep merge recurses into). -/
def JValue.isObj : JValue → Bool
  | .obj _ => true
  | _ => false

/-- Property read: first binding of the key, if any. -/
def lookupF : JObj → String → Option JValue
  | [], _ => none
  | (k, v) :: rest, key => if k = key then some v else lookupF rest key

/-- Property write, JavaScript style: an existing key keeps its position,
a new key is appended at the end. -/
def setKey : JObj → String → JValue → JObj
  | [], key, v => [(key, v)]
  | (k, w) :: rest, key, v =>
    if k = key then (k, v) :: rest else (k, w) :: setKey rest key v

/-- Modelled from the spec: the generic recursive deep-merge primitive
deepMerge(target, source, overwrite) consumed from the external utility
library (the spec's section 6 contract). For each field of the source, in
order: when both sides hold plain objects the merge recurses; otherwise the
source value is written when overwrite is set or the key is absent from the
target; arrays are replaced wholesale, never concatenated. -/
def mergeObj (t : JObj) (s : JObj) (ow : Bool) : JObj :=
  match s with
  | [] => t
  | (k, sv) :: rest =>
    match lookupF t k, sv with
    | some (JValue.obj tf), JValue.obj sf =>
      mergeObj (setKey t k (JValue.obj (mergeObj tf sf ow))) rest ow
    | some _, _ => mergeObj (if ow then setKey t k sv else t) rest ow
    | none, _ => mergeObj (setKey t k sv) rest ow
termination_by sizeOf s
decreasing_by
  all_goals simp_wf
  all_goals omega

/-- Top-level merge of a possibly-undefined source into an object target,
without overwrite: a non-object source leaves the target unchanged
(deepMerge returns the target when the source is not an object). -/
def mergeWithSource (t : JObj) (s : JValue) : JObj :=
  match s with
  | JValue.obj sf => mergeObj t sf false
  | _ => t

/-- Modelled from the spec: a registered constructor as seen through the
class-registry utilities (src/util/clazz.ts, not under src/): its prototype
carries an optional declared defaultOption and a static dependencies list;
constructors produced by the extend mechanism are marked extended and carry
a superClass link forming the inheritance chain. -/
inductive Ctor : Type where
  | root (defaultOption : Option JObj) (dependencies : List String) (isExtended : Bool)
  | child (defaultOption : Option JObj) (dependencies : List String) (isExtended : Bool)
      (superClass : Ctor)

/-- Declared defaultOption on the constructor's prototype, if any. -/
def ctorDefaultOption : Ctor → Option JObj
  | .root d _ _ => d
  | .child d _ _ _ => d

/-- Static dependencies list on the constructor's prototype (empty when undeclared,
mirroring the source's fallback to an empty list). -/
def ctorDependencies : Ctor → List String
  | .root _ deps _ => deps
  | .child _ deps _ _ => deps

/-- Whether the constructor was produced through the extend mechanism
(the isExtendedClass marker of the class utilities). -/
def ctorIsExtended : Ctor → Bool
  | .root _ _ e => e
  | .child _ _ e _ => e

/-- The optList collected by getDefaultOption's chain walk: the declared
defaultOption of the constructor and of each ancestor reached through
superClass, most-derived first, skipping undeclared ones. -/
def chainOptList : Ctor → List JObj
  | .root d _ _ => d.toList
  | .child d _ _ sup => d.toList ++ chainOptList sup

/-- The chain-walking merge of getDefaultOption: starting from an empty object,
merge the collected defaultOption objects from most-base to most-derived with
overwrite set, so derived fields win over base fields. -/
def computeMergedDefault (c : Ctor) : JObj :=
  (chainOptList c).reverse.foldl (fun acc o => mergeObj acc o true) []

/-- The constructor's own declared default object as a value: the object when
declared, undefined otherwise (what a non-extended constructor returns). -/
def protoDefaultOptionJ (c : Ctor) : JValue :=
  match ctorDefaultOption c with
  | some o => JValue.obj o
  | none => JValue.undef

/-- Value returned by getDefaultOption, memoization aside: a non-extended
constructor returns its own declared default object unchanged; an extended
constructor returns the inheritance-merged chain. -/
def getDefaultOptionValue (c : Ctor) : JValue :=
  if ctorIsExtended c = false then protoDefaultOptionJ c
  else JValue.obj (computeMergedDefault c)

/-- Layout mode declared by a component: a mode name string or an
ignoreSize record (the source type string | with ignoreSize boolean). -/
inductive LayoutMode : Type where
  | modeName (s : String)
  | ignoreSizeMode (ignoreSize : Bool)

/-- Position and size field names handled by the box layout utilities. -/
def layoutParamNames : List String := ["left", "right", "top", "bottom", "width", "height"]

/-- Modelled from the spec: getLayoutParams of the layout utilities
(src/util/layout.ts, not under src/) extracts the position/size fields
left, right, top, bottom, width, height from an option object. -/
def getLayoutParams (option : JObj) : JObj :=
  option.filter (fun kv => layoutParamNames.contains kv.1)

/-- Per-instance state of a component model: identity fields initialized on
the prototype by protoInitialize together with the dependentModels field
initializer, the declared layoutMode, the concrete constructor, the owned
option object, and the instance's inner data slot used by getDefaultOption's
memoization (the makeInner storage of src/util/model.ts, not under src/,
modelled as a private field attached to the host object it is given). -/
structure ComponentModel : Type where
  type : String
  id : String
  name : String
  mainType : String
  subType : String
  componentIndex : Nat
  dependentModels : List (String × List Nat)
  layoutMode : Option LayoutMode
  ctor : Ctor
  option : JObj
  innerDefaultOption : Option JValue

/-- A freshly constructed instance, before the document resolver injects any
identity metadata: prototype defaults from protoInitialize, an empty
dependentModels map, the option handed to the constructor, and an empty
inner slot. -/
def freshComponentModel (c : Ctor) (lm : Option LayoutMode) (opt : JObj) : ComponentModel :=
  { type := "component", id := "", name := "", mainType := "", subType := ""
    componentIndex := 0, dependentModels := [], layoutMode := lm, ctor := c
    option := opt, innerDefaultOption := none }

/-- ComponentModel.getDefaultOption with its memoization: a non-extended
constructor returns its declared default directly; an extended constructor
returns the value cached in the instance's inner slot when present, and
otherwise computes the chain merge and stores it there. The updated instance
is returned alongside the value, making the state change explicit. -/
def ComponentModel.getDefaultOption (m : ComponentModel) : JValue × ComponentModel :=
  if ctorIsExtended m.ctor = false then (protoDefaultOptionJ m.ctor, m)
  else
    match m.innerDefaultOption with
    | some v => (v, m)
    | none =>
      let v := JValue.obj (computeMergedDefault m.ctor)
      (v, { m with innerDefaultOption := some v })

/-- ComponentModel.mergeDefaultAndTheme: extract the input position snapshot
when a layout mode is declared, deep-merge (without overwrite) the theme's
fragment for the instance's main type and then the resolved default option
into the option, and finally re-apply the snapshot through the external
layout reconciliation function mergeLayoutParam, passed in as the parameter
mlp (src/util/layout.ts, not under src/; the theme is consumed through the
get interface passed in as getTheme). -/
def ComponentModel.mergeDefaultAndTheme (mlp : JObj → JObj → LayoutMode → JObj)
    (getTheme : String → JValue) (m : ComponentModel) (option : JObj) : JObj :=
  let inputPositionParams : JObj :=
    match m.layoutMode with
    | some _ => getLayoutParams option
    | none => []
  let afterTheme := mergeWithSource option (getTheme m.mainType)
  let afterDefault := mergeWithSource afterTheme (getDefaultOptionValue m.ctor)
  match m.layoutMode with
  | some lm => mlp afterDefault inputPositionParams lm
  | none => afterDefault

/-- ComponentModel.init: runs mergeDefaultAndTheme on the instance's option. -/
def ComponentModel.init (mlp : JObj → JObj → LayoutMode → JObj)
    (getTheme : String → JValue) (m : ComponentModel) : ComponentModel :=
  { m with option := ComponentModel.mergeDefaultAndTheme mlp getTheme m m.option }

/-- ComponentModel.mergeOption: deep-merge the incoming option into the
instance's current option with overwrite set, then re-apply layout
reconciliation with the incoming option when a layout mode is declared. -/
def ComponentModel.mergeOption (mlp : JObj → JObj → LayoutMode → JObj)
    (m : ComponentModel) (newOption : JObj) : ComponentModel :=
  let merged := mergeObj m.option newOption true
  let final :=
    match m.layoutMode with
    | some lm => mlp merged newOption lm
    | none => merged
  { m with option := final }

/-- ComponentModel.optionUpdated: the extension hook, a no-op by default. -/
def ComponentModel.optionUpdated (m : ComponentModel) (_newCptOption : JValue)
    (_isInit : Bool) : ComponentModel :=
  m

/-- Modelled from the spec: the document resolver's construction flow
(src/model/Global.ts, not under src/) runs init, which performs
mergeDefaultAndTheme, and then invokes the optionUpdated hook with the new
option and isInit set to true. -/
def constructComponent (mlp : JObj → JObj → LayoutMode → JObj)
    (getTheme : String → JValue) (m : ComponentModel) : ComponentModel :=
  let m1 := ComponentModel.init mlp getTheme m
  ComponentModel.optionUpdated m1 (JValue.obj m.option) true

/-- Modelled from the spec: a class-registry entry (src/util/clazz.ts, not
under src/) associating a main type and subtype pair with a constructor;
the registry is the list of entries in registration order. -/
structure RegEntry : Type where
  main : String
  sub : String
  ctor : Ctor

/-- Modelled from the spec: getClassesByMainType returns every constructor
registered under the main type, across all subtypes, in registration order. -/
def getClassesByMainType (reg : List RegEntry) (main : String) : List Ctor :=
  (reg.filter (fun e => e.main = main)).map (fun e => e.ctor)

/-- Modelled from the spec: the main part of parseClassType of the class
utilities (src/util/clazz.ts, not under src/): the prefix of the identifier
before the first dot, the whole identifier when no dot occurs, empty for the
empty identifier. -/
def parseClassTypeMain (s : String) : String :=
  String.mk (s.toList.takeWhile (fun c => c ≠ '.'))

/-- Modelled from the spec: the utility indexOf, returning the first index of
the value in the list, or minus one when absent. -/
def indexOfZ (l : List String) (x : String) : Int :=
  match l with
  | [] => -1
  | a :: rest =>
    if a = x then 0
    else
      let r := indexOfZ rest x
      if r < 0 then -1 else r + 1

/-- Dependency lists of every constructor registered under the main type,
concatenated in registration order and normalized to main components. -/
def collectedDeps (reg : List RegEntry) (componentType : String) : List String :=
  ((getClassesByMainType reg componentType).foldl
    (fun acc clz => acc ++ ctorDependencies clz) []).map parseClassTypeMain

/-- The getDependencies function: collect and normalize every registered
constructor's dependencies under the main type, then prepend dataset unless
the main type is dataset itself or dataset occurs at a positive index. -/
def getDependencies (reg : List RegEntry) (componentType : String) : List String :=
  if componentType ≠ "dataset" ∧ indexOfZ (collectedDeps reg componentType) "dataset" ≤ 0 then
    "dataset" :: collectedDeps reg componentType
  else collectedDeps reg componentType

/-!
Example constants used by the concrete conjuncts, counterexamples, and
witnesses below.
-/

/-- Example reconciliation function standing in for mergeLayoutParam: lay the
snapshot back over the merged result. Any function may be plugged in; the
claims quantify over it. -/
def exMlp : JObj → JObj → LayoutMode → JObj :=
  fun merged snapshot _ => mergeObj merged snapshot true

/-- Example theme source for the merge-precedence example. -/
def exThemeC1 : String → JValue := fun main =>
  if main = "grid" then JValue.obj [("a", JValue.num 2), ("b", JValue.num 2)]
  else JValue.undef

/-- Example constructor whose declared default option is the example's
defaultOption object. -/
def exCtorC1 : Ctor :=
  Ctor.root (some [("a", JValue.num 3), ("b", JValue.num 3), ("c", JValue.num 3)]) [] false

/-- Example instance holding the user option of the merge-precedence example. -/
def exModelC1 : ComponentModel :=
  { freshComponentModel exCtorC1 none [("a", JValue.num 1)] with mainType := "grid" }

/-- Example constructor with no declared default option. -/
def exCtorPlain : Ctor := Ctor.root none [] false

/-- Example instance holding the prior option of the patch-precedence example. -/
def exModelC2 : ComponentModel :=
  freshComponentModel exCtorPlain none [("a", JValue.num 1), ("b", JValue.num 2)]

/-- Example base constructor of the inheritance chain, declaring aaa:1. -/
def exBaseC5 : Ctor := Ctor.root (some [("aaa", JValue.num 1)]) [] true

/-- Example derived constructor, declaring bbb:2 over the base. -/
def exDerivedC5 : Ctor := Ctor.child (some [("bbb", JValue.num 2)]) [] true exBaseC5

/-- Example second derived constructor overriding aaa:9. -/
def exDerived2C5 : Ctor := Ctor.child (some [("aaa", JValue.num 9)]) [] true exDerivedC5

/-- Example directly-declared, non-extended constructor. -/
def exCtorDirect : Ctor := Ctor.root (some [("xx", JValue.num 123)]) [] false

/-- Example fresh instance of the extended example constructor. -/
def exInstC6A : ComponentModel := freshComponentModel exDerivedC5 none []

/-- A second, separately created fresh instance of the same constructor. -/
def exInstC6B : ComponentModel := freshComponentModel exDerivedC5 none []

/-- Example registry with two subtypes under one main type, both declaring the
same dependency. -/
def exRegDup : List RegEntry :=
  [⟨"grid", "a", Ctor.root none ["xAxis"] false⟩,
   ⟨"grid", "b", Ctor.root none ["xAxis"] false⟩]

/-- Example registry registering a dataset subtype that itself declares
dataset as a dependency. -/
def exRegC4 : List RegEntry := [⟨"dataset", "a", Ctor.root none ["dataset"] false⟩]

/-!
Theorems: helper lemmas about the embedded operations, followed by the
claim theorems, their witnesses, and counterexamples.
-/

theorem isObj_iff_exists (v : JValue) : v.isObj = true ↔ ∃ f, v = JValue.obj f := by
  cases v <;> simp [JValue.isObj]

theorem lookupF_setKey_self (o : JObj) (k : String) (v : JValue) :
    lookupF (setKey o k v) k = some v := by
  induction o with
  | nil => simp [setKey, lookupF]
  | cons hd tl ih =>
    obtain ⟨k0, w⟩ := hd
    by_cases h : k0 = k
    · simp [setKey, lookupF, h]
    · simp [setKey, lookupF, h, ih]

theorem lookupF_setKey_ne (o : JObj) (k k' : String) (v : JValue) (h : k ≠ k') :
    lookupF (setKey o k v) k' = lookupF o k' := by
  induction o with
  | nil => simp [setKey, lookupF, h]
  | cons hd tl ih =>
    obtain ⟨k0, w⟩ := hd
    by_cases h0 : k0 = k
    · subst h0
      simp [setKey, lookupF, h]
    · simp [setKey, lookupF, h0, ih]

theorem lookupF_eq_none_iff (s : JObj) (k : String) :
    lookupF s k = none ↔ k ∉ s.map Prod.fst := by
  induction s with
  | nil => simp [lookupF]
  | cons hd tl ih =>
    obtain ⟨k0, w⟩ := hd
    by_cases h : k0 = k
    · simp [lookupF, h]
    · simp [lookupF, h, ih, Ne.symm h]

theorem mergeObj_nil (t : JObj) (ow : Bool) : mergeObj t [] ow = t := by
  rw [mergeObj.eq_def]

theorem mergeObj_cons_new (t : JObj) (k : String) (sv : JValue) (rest : JObj) (ow : Bool)
    (h : lookupF t k = none) :
    mergeObj t ((k, sv) :: rest) ow = mergeObj (setKey t k sv) rest ow := by
  rw [mergeObj.eq_def]
  simp [h]

theorem mergeObj_cons_objobj (t : JObj) (k : String) (tf sf : JObj) (rest : JObj) (ow : Bool)
    (h : lookupF t k = some (JValue.obj tf)) :
    mergeObj t ((k, JValue.obj sf) :: rest) ow
      = mergeObj (setKey t k (JValue.obj (mergeObj tf sf ow))) rest ow := by
  rw [mergeObj.eq_def]
  simp [h]

theorem mergeObj_cons_keep (t : JObj) (k : String) (tv sv : JValue) (rest : JObj) (ow : Bool)
    (h : lookupF t k = some tv) (hno : tv.isObj = false ∨ sv.isObj = false) :
    mergeObj t ((k, sv) :: rest) ow
      = mergeObj (if ow then setKey t k sv else t) rest ow := by
  rw [mergeObj.eq_def]
  cases tv <;> cases sv <;> simp [JValue.isObj] at hno ⊢ <;> simp [h]

theorem lookupF_mergeObj_absent (s : JObj) (k : String) (ow : Bool)
    (hs : lookupF s k = none) :
    ∀ t : JObj, lookupF (mergeObj t s ow) k = lookupF t k := by
  induction s with
  | nil => intro t; rw [mergeObj_nil]
  | cons hd rest ih =>
    intro t
    obtain ⟨k0, sv⟩ := hd
    by_cases hk : k0 = k
    · simp [lookupF, hk] at hs
    · simp only [lookupF, if_neg hk] at hs
      cases hlt : lookupF t k0 with
      | none =>
        rw [mergeObj_cons_new t k0 sv rest ow hlt, ih hs, lookupF_setKey_ne _ _ _ _ hk]
      | some tv =>
        by_cases hobj : tv.isObj = true ∧ sv.isObj = true
        · obtain ⟨tf, rfl⟩ := (isObj_iff_exists tv).mp hobj.1
          obtain ⟨sf, rfl⟩ := (isObj_iff_exists sv).mp hobj.2
          rw [mergeObj_cons_objobj t k0 tf sf rest ow hlt, ih hs,
            lookupF_setKey_ne _ _ _ _ hk]
        · have hno : tv.isObj = false ∨ sv.isObj = false := by
            cases htv : tv.isObj
            · exact Or.inl rfl
            · cases hsv : sv.isObj
              · exact Or.inr rfl
              · exact absurd ⟨htv, hsv⟩ hobj
          rw [mergeObj_cons_keep t k0 tv sv rest ow hlt hno, ih hs]
          cases ow with
          | false => simp
          | true => simp [lookupF_setKey_ne _ _ _ _ hk]

theorem lookupF_mergeObj_keep (s : JObj) (k : String) (v : JValue)
    (hv : v.isObj = false) :
    ∀ t : JObj, lookupF t k = some v → lookupF (mergeObj t s false) k = some v := by
  induction s with
  | nil => intro t ht; rw [mergeObj_nil]; exact ht
  | cons hd rest ih =>
    intro t ht
    obtain ⟨k0, sv⟩ := hd
    by_cases hk : k0 = k
    · subst hk
      rw [mergeObj_cons_keep t k0 v sv rest false ht (Or.inl hv)]
      simp only [Bool.false_eq_true, if_false]
      exact ih t ht
    · cases hlt : lookupF t k0 with
      | none =>
        rw [mergeObj_cons_new t k0 sv rest false hlt]
        exact ih _ (by rw [lookupF_setKey_ne _ _ _ _ hk]; exact ht)
      | some tv =>
        by_cases hobj : tv.isObj = true ∧ sv.isObj = true
        · obtain ⟨tf, rfl⟩ := (isObj_iff_exists tv).mp hobj.1
          obtain ⟨sf, rfl⟩ := (isObj_iff_exists sv).mp hobj.2
          rw [mergeObj_cons_objobj t k0 tf sf rest false hlt]
          exact ih _ (by rw [lookupF_setKey_ne _ _ _ _ hk]; exact ht)
        · have hno : tv.isObj = false ∨ sv.isObj = false := by
            cases htv : tv.isObj
            · exact Or.inl rfl
            · cases hsv : sv.isObj
              · exact Or.inr rfl
              · exact absurd ⟨htv, hsv⟩ hobj
          rw [mergeObj_cons_keep t k0 tv sv rest false hlt hno]
          simp only [Bool.false_eq_true, if_false]
          exact ih t ht

theorem lookupF_mergeObj_acquire (s : JObj) (k : String) (sv : JValue)
    (hv : sv.isObj = false) :
    ∀ t : JObj, lookupF t k = none → lookupF s k = some sv →
      lookupF (mergeObj t s false) k = some sv := by
  induction s with
  | nil => intro t ht hs; simp [lookupF] at hs
  | cons hd rest ih =>
    intro t ht hs
    obtain ⟨k0, sv0⟩ := hd
    by_cases hk : k0 = k
    · subst hk
      simp only [lookupF, if_true, eq_self_iff_true, Option.some.injEq] at hs
      subst hs
      rw [mergeObj_cons_new t k0 sv0 rest false ht]
      exact lookupF_mergeObj_keep rest k0 sv0 hv _ (lookupF_setKey_self t k0 sv0)
    · simp only [lookupF, if_neg hk] at hs
      cases hlt : lookupF t k0 with
      | none =>
        rw [mergeObj_cons_new t k0 sv0 rest false hlt]
        exact ih _ (by rw [lookupF_setKey_ne _ _ _ _ hk]; exact ht) hs
      | some tv =>
        by_cases hobj : tv.isObj = true ∧ sv0.isObj = true
        · obtain ⟨tf, rfl⟩ := (isObj_iff_exists tv).mp hobj.1
          obtain ⟨sf, rfl⟩ := (isObj_iff_exists sv0).mp hobj.2
          rw [mergeObj_cons_objobj t k0 tf sf rest false hlt]
          exact ih _ (by rw [lookupF_setKey_ne _ _ _ _ hk]; exact ht) hs
        · have hno : tv.isObj = false ∨ sv0.isObj = false := by
            cases htv : tv.isObj
            · exact Or.inl rfl
            · cases hsv : sv0.isObj
              · exact Or.inr rfl
              · exact absurd ⟨htv, hsv⟩ hobj
          rw [mergeObj_cons_keep t k0 tv sv0 rest false hlt hno]
          simp only [Bool.false_eq_true, if_false]
          exact ih t ht hs

theorem lookupF_mergeObj_overwrite (s : JObj) (k : String) (sv : JValue)
    (hv : sv.isObj = false) (hnd : (s.map Prod.fst).Nodup) :
    ∀ t : JObj, lookupF s k = some sv →
      lookupF (mergeObj t s true) k = some sv := by
  induction s with
  | nil => intro t hs; simp [lookupF] at hs
  | cons hd rest ih =>
    intro t hs
    obtain ⟨k0, sv0⟩ := hd
    simp only [List.map_cons, List.nodup_cons] at hnd
    by_cases hk : k0 = k
    · subst hk
      simp only [lookupF, if_true, eq_self_iff_true, Option.some.injEq] at hs
      subst hs
      have hrest : lookupF rest k0 = none := (lookupF_eq_none_iff rest k0).mpr hnd.1
      cases hlt : lookupF t k0 with
      | none =>
        rw [mergeObj_cons_new t k0 sv0 rest true hlt,
          lookupF_mergeObj_absent rest k0 true hrest, lookupF_setKey_self]
      | some tv =>
        rw [mergeObj_cons_keep t k0 tv sv0 rest true hlt (Or.inr hv)]
        simp only [if_true]
        rw [lookupF_mergeObj_absent rest k0 true hrest, lookupF_setKey_self]
    · simp only [lookupF, if_neg hk] at hs
      cases hlt : lookupF t k0 with
      | none =>
        rw [mergeObj_cons_new t k0 sv0 rest true hlt]
        exact ih hnd.2 _ hs
      | some tv =>
        by_cases hobj : tv.isObj = true ∧ sv0.isObj = true
        · obtain ⟨tf, rfl⟩ := (isObj_iff_exists tv).mp hobj.1
          obtain ⟨sf, rfl⟩ := (isObj_iff_exists sv0).mp hobj.2
          rw [mergeObj_cons_objobj t k0 tf sf rest true hlt]
          exact ih hnd.2 _ hs
        · have hno : tv.isObj = false ∨ sv0.isObj = false := by
            cases htv : tv.isObj
            · exact Or.inl rfl
            · cases hsv : sv0.isObj
              · exact Or.inr rfl
              · exact absurd ⟨htv, hsv⟩ hobj
          rw [mergeObj_cons_keep t k0 tv sv0 rest true hlt hno]
          simp only [if_true]
          exact ih hnd.2 _ hs

/-- C1: mergeDefaultAndTheme merges the theme fragment for the instance's main
type and then the default option into the user option without overwriting
fields the user option already defines: user-supplied fields beat theme
fields, which beat default-option fields, and on the spec's concrete example
option a:1, theme a:2 b:2, default a:3 b:3 c:3 the result is a:1 b:2 c:3. -/
theorem c1_mergeDefaultAndTheme_precedence
    (mlp : JObj → JObj → LayoutMode → JObj) (getTheme : String → JValue)
    (m : ComponentModel) (option themeFrag defOpt : JObj)
    (hlm : m.layoutMode = none)
    (hT : getTheme m.mainType = JValue.obj themeFrag)
    (hD : getDefaultOptionValue m.ctor = JValue.obj defOpt) :
    (∀ k v, lookupF option k = some v → v.isObj = false →
      lookupF (ComponentModel.mergeDefaultAndTheme mlp getTheme m option) k = some v) ∧
    (∀ k v, lookupF option k = none → lookupF themeFrag k = some v → v.isObj = false →
      lookupF (ComponentModel.mergeDefaultAndTheme mlp getTheme m option) k = some v) ∧
    (∀ k v, lookupF option k = none → lookupF themeFrag k = none →
      lookupF defOpt k = some v → v.isObj = false →
      lookupF (ComponentModel.mergeDefaultAndTheme mlp getTheme m option) k = some v) ∧
    ComponentModel.mergeDefaultAndTheme mlp exThemeC1 exModelC1 exModelC1.option
      = [("a", JValue.num 1), ("b", JValue.num 2), ("c", JValue.num 3)] := by
  have hres : ComponentModel.mergeDefaultAndTheme mlp getTheme m option
      = mergeObj (mergeObj option themeFrag false) defOpt false := by
    simp only [ComponentModel.mergeDefaultAndTheme, hlm, hT, hD, mergeWithSource]
  refine ⟨?_, ?_, ?_, ?_⟩
  · intro k v hopt hv
    rw [hres]
    exact lookupF_mergeObj_keep defOpt k v hv _
      (lookupF_mergeObj_keep themeFrag k v hv _ hopt)
  · intro k v h1 h2 hv
    rw [hres]
    exact lookupF_mergeObj_keep defOpt k v hv _
      (lookupF_mergeObj_acquire themeFrag k v hv _ h1 h2)
  · intro k v h1 h2 h3 hv
    rw [hres]
    refine lookupF_mergeObj_acquire defOpt k v hv _ ?_ h3
    rw [lookupF_mergeObj_absent themeFrag k false h2]
    exact h1
  · simp [ComponentModel.mergeDefaultAndTheme, mergeWithSource, exThemeC1, exModelC1,
      exCtorC1, freshComponentModel, getDefaultOptionValue, ctorIsExtended,
      protoDefaultOptionJ, ctorDefaultOption, mergeObj, lookupF, setKey]

/-- Witness for C1 at the spec's concrete inputs: the theme-supplied field b
wins over the default option because the user option does not define it. -/
theorem c1_witness :
    lookupF (ComponentModel.mergeDefaultAndTheme exMlp exThemeC1 exModelC1
      exModelC1.option) "b" = some (JValue.num 2) := by
  exact (c1_mergeDefaultAndTheme_precedence exMlp exThemeC1 exModelC1
    exModelC1.option [("a", JValue.num 2), ("b", JValue.num 2)]
    [("a", JValue.num 3), ("b", JValue.num 3), ("c", JValue.num 3)]
    rfl rfl rfl).2.1 "b" (JValue.num 2) rfl rfl rfl

/-- C2: mergeOption deep-merges the incoming option into the instance's
current option with incoming fields winning over prior state, then re-applies
layout reconciliation when a layout mode is declared; on the spec's concrete
example, prior a:1 b:2 patched with b:9 c:9 gives a:1 b:9 c:9. -/
theorem c2_mergeOption_patch_precedence
    (mlp : JObj → JObj → LayoutMode → JObj) (m : ComponentModel) (newOption : JObj)
    (hlm : m.layoutMode = none) :
    (∀ k v, lookupF newOption k = some v → v.isObj = false →
      (newOption.map Prod.fst).Nodup →
      lookupF (ComponentModel.mergeOption mlp m newOption).option k = some v) ∧
    (∀ k, lookupF newOption k = none →
      lookupF (ComponentModel.mergeOption mlp m newOption).option k = lookupF m.option k) ∧
    (∀ (m2 : ComponentModel) (lm : LayoutMode), m2.layoutMode = some lm →
      (ComponentModel.mergeOption mlp m2 newOption).option
        = mlp (mergeObj m2.option newOption true) newOption lm) ∧
    (ComponentModel.mergeOption mlp exModelC2
        [("b", JValue.num 9), ("c", JValue.num 9)]).option
      = [("a", JValue.num 1), ("b", JValue.num 9), ("c", JValue.num 9)] := by
  have hres : (ComponentModel.mergeOption mlp m newOption).option
      = mergeObj m.option newOption true := by
    simp only [ComponentModel.mergeOption, hlm]
  refine ⟨?_, ?_, ?_, ?_⟩
  · intro k v hnew hv hnd
    rw [hres]
    exact lookupF_mergeObj_overwrite newOption k v hv hnd _ hnew
  · intro k hnone
    rw [hres]
    exact lookupF_mergeObj_absent newOption k true hnone _
  · intro m2 lm h2
    simp only [ComponentModel.mergeOption, h2]
  · simp [ComponentModel.mergeOption, exModelC2, freshComponentModel, mergeObj,
      lookupF, setKey]

/-- Witness for C2 at the spec's concrete inputs: the incoming field b wins
over the prior state. -/
theorem c2_witness :
    lookupF (ComponentModel.mergeOption exMlp exModelC2
      [("b", JValue.num 9), ("c", JValue.num 9)]).option "b" = some (JValue.num 9) := by
  exact (c2_mergeOption_patch_precedence exMlp exModelC2
    [("b", JValue.num 9), ("c", JValue.num 9)] rfl).1 "b" (JValue.num 9)
    rfl rfl (by decide)

/-- C9: when a layout mode is declared, mergeDefaultAndTheme extracts the
position/size snapshot from the user option before any merging and re-applies
it on top of the merge result through the external reconciliation function;
when no layout mode is declared, the result is just the theme-and-default
merge, independent of the reconciliation function and with no extraction. -/
theorem c9_mergeDefaultAndTheme_layout_snapshot
    (mlp : JObj → JObj → LayoutMode → JObj) (getTheme : String → JValue)
    (m : ComponentModel) (option : JObj) :
    (∀ lm : LayoutMode, m.layoutMode = some lm →
      ComponentModel.mergeDefaultAndTheme mlp getTheme m option
        = mlp (mergeWithSource (mergeWithSource option (getTheme m.mainType))
            (getDefaultOptionValue m.ctor)) (getLayoutParams option) lm) ∧
    (m.layoutMode = none →
      ComponentModel.mergeDefaultAndTheme mlp getTheme m option
        = mergeWithSource (mergeWithSource option (getTheme m.mainType))
            (getDefaultOptionValue m.ctor)) := by
  constructor
  · intro lm hlm
    simp only [ComponentModel.mergeDefaultAndTheme, hlm]
  · intro hlm
    simp only [ComponentModel.mergeDefaultAndTheme, hlm]

/-- Witness for C9: a concrete instance declaring a box layout mode routes its
merge result and input position snapshot through the reconciliation function. -/
theorem c9_witness :
    ComponentModel.mergeDefaultAndTheme exMlp exThemeC1
      { exModelC1 with layoutMode := some (LayoutMode.modeName "box") }
      [("left", JValue.num 5)]
      = exMlp (mergeWithSource (mergeWithSource [("left", JValue.num 5)]
          (exThemeC1 "grid")) (getDefaultOptionValue exCtorC1))
        (getLayoutParams [("left", JValue.num 5)]) (LayoutMode.modeName "box") := by
  exact (c9_mergeDefaultAndTheme_layout_snapshot exMlp exThemeC1
    { exModelC1 with layoutMode := some (LayoutMode.modeName "box") }
    [("left", JValue.num 5)]).1 (LayoutMode.modeName "box") rfl

/-- C8: construction runs mergeDefaultAndTheme to produce the instance's
working option and then invokes the optionUpdated hook with isInit true, and
the default optionUpdated hook is a no-op. -/
theorem c8_construct_merges_then_hooks
    (mlp : JObj → JObj → LayoutMode → JObj) (getTheme : String → JValue)
    (m : ComponentModel) :
    constructComponent mlp getTheme m
      = ComponentModel.optionUpdated
          { m with option := ComponentModel.mergeDefaultAndTheme mlp getTheme m m.option }
          (JValue.obj m.option) true ∧
    (∀ (m2 : ComponentModel) (o : JValue) (b : Bool),
      ComponentModel.optionUpdated m2 o b = m2) := by
  exact ⟨rfl, fun _ _ _ => rfl⟩

/-- C10: a freshly created instance, before the document resolver injects
identity metadata, has type "component", empty id, name, mainType and subType,
componentIndex zero, and an empty dependentModels map. -/
theorem c10_fresh_instance_prototype_defaults
    (c : Ctor) (lm : Option LayoutMode) (opt : JObj) :
    (freshComponentModel c lm opt).type = "component" ∧
    (freshComponentModel c lm opt).id = "" ∧
    (freshComponentModel c lm opt).name = "" ∧
    (freshComponentModel c lm opt).mainType = "" ∧
    (freshComponentModel c lm opt).subType = "" ∧
    (freshComponentModel c lm opt).componentIndex = 0 ∧
    (freshComponentModel c lm opt).dependentModels = [] := by
  exact ⟨rfl, rfl, rfl, rfl, rfl, rfl, rfl⟩

/-- C5: getDefaultOption on an extended constructor merges the defaultOption
objects along the inheritance chain with derived fields beating base fields
(base aaa:1 plus derived bbb:2 gives aaa:1 bbb:2, overriding aaa:9 gives
aaa:9 bbb:2), while a non-extended constructor returns its own declared
default object unchanged with no chain walk. -/
theorem c5_getDefaultOption_inheritance_merge :
    getDefaultOptionValue exDerivedC5
      = JValue.obj [("aaa", JValue.num 1), ("bbb", JValue.num 2)] ∧
    getDefaultOptionValue exDerived2C5
      = JValue.obj [("aaa", JValue.num 9), ("bbb", JValue.num 2)] ∧
    (∀ c : Ctor, ctorIsExtended c = false →
      getDefaultOptionValue c = protoDefaultOptionJ c) := by
  refine ⟨?_, ?_, ?_⟩
  · simp [getDefaultOptionValue, ctorIsExtended, exDerivedC5, exBaseC5,
      computeMergedDefault, chainOptList, mergeObj, lookupF, setKey]
  · simp [getDefaultOptionValue, ctorIsExtended, exDerived2C5, exDerivedC5, exBaseC5,
      computeMergedDefault, chainOptList, mergeObj, lookupF, setKey]
  · intro c h
    simp [getDefaultOptionValue, h]

/-- Witness for C5: the non-extended branch applied to a concrete
directly-declared constructor returns its declared default unchanged. -/
theorem c5_witness :
    getDefaultOptionValue exCtorDirect = JValue.obj [("xx", JValue.num 123)] := by
  exact (c5_getDefaultOption_inheritance_merge.2.2 exCtorDirect rfl).trans rfl

/-- Counterexample to C6: the memoization slot written by getDefaultOption is
a field of the instance, not a table keyed by the constructor. The first
access writes the accessed instance's own inner slot, while a second instance
of the very same constructor still has an empty slot, so its own first access
takes the compute branch again (observable as a state change) instead of
sharing the cached merge. -/
theorem c6_counterexample :
    ((ComponentModel.getDefaultOption exInstC6A).2).innerDefaultOption
      = some (JValue.obj (computeMergedDefault exDerivedC5)) ∧
    exInstC6B.innerDefaultOption = none ∧
    (ComponentModel.getDefaultOption exInstC6B).2 ≠ exInstC6B := by
  refine ⟨rfl, rfl, ?_⟩
  have h1 : ((ComponentModel.getDefaultOption exInstC6B).2).innerDefaultOption
      = some (JValue.obj (computeMergedDefault exDerivedC5)) := rfl
  intro h
  rw [h] at h1
  exact Option.noConfusion h1

/-- C6 as amended: the inheritance-merged default option is computed lazily on
first access and cached on the instance itself (the inner slot attached to
the instance), so a cache hit happens only on the same instance: an extended
instance with an empty slot computes the merge and stores it, and an instance
whose slot is filled returns the stored value unchanged. -/
theorem c6_lazy_per_instance_cache (m : ComponentModel)
    (hx : ctorIsExtended m.ctor = true) :
    (m.innerDefaultOption = none →
      ComponentModel.getDefaultOption m
        = (JValue.obj (computeMergedDefault m.ctor),
           { m with innerDefaultOption := some (JValue.obj (computeMergedDefault m.ctor)) })) ∧
    (∀ v, m.innerDefaultOption = some v →
      ComponentModel.getDefaultOption m = (v, m)) := by
  constructor
  · intro h
    simp [ComponentModel.getDefaultOption, hx, h]
  · intro v h
    simp [ComponentModel.getDefaultOption, hx, h]

theorem c6_witness :
    ComponentModel.getDefaultOption exInstC6B
      = (JValue.obj (computeMergedDefault exDerivedC5),
         { exInstC6B with
           innerDefaultOption := some (JValue.obj (computeMergedDefault exDerivedC5)) }) := by
  exact (c6_lazy_per_instance_cache exInstC6B rfl).1 rfl

/-! Helper lemmas about the dependency resolver. -/

theorem foldl_append_deps (L : List Ctor) (ini : List String) :
    L.foldl (fun acc clz => acc ++ ctorDependencies clz) ini
      = ini ++ (L.map ctorDependencies).flatten := by
  induction L generalizing ini with
  | nil => simp
  | cons c rest ih => simp [ih, List.append_assoc]

theorem mem_collectedDeps_iff (reg : List RegEntry) (main d : String) :
    d ∈ collectedDeps reg main
      ↔ ∃ c ∈ getClassesByMainType reg main, ∃ t ∈ ctorDependencies c,
          parseClassTypeMain t = d := by
  simp [collectedDeps, foldl_append_deps, List.mem_flatten, List.mem_map]

theorem indexOfZ_neg_of_not_mem (l : List String) (x : String) (h : x ∉ l) :
    indexOfZ l x = -1 := by
  induction l with
  | nil => rfl
  | cons a rest ih =>
    simp only [List.mem_cons] at h
    push_neg at h
    have hax : ¬ a = x := fun hax => h.1 hax.symm
    simp only [indexOfZ, if_neg hax]
    rw [ih h.2]
    norm_num

theorem getDependencies_dataset_eq (reg : List RegEntry) :
    getDependencies reg "dataset" = collectedDeps reg "dataset" := by
  rw [getDependencies, if_neg]
  rintro ⟨h, -⟩
  exact h rfl

theorem dataset_mem_getDependencies (reg : List RegEntry) (main : String)
    (h : main ≠ "dataset") : "dataset" ∈ getDependencies reg main := by
  by_cases hc : indexOfZ (collectedDeps reg main) "dataset" ≤ 0
  · rw [getDependencies, if_pos ⟨h, hc⟩]
    exact List.mem_cons_self _ _
  · have hmem : "dataset" ∈ collectedDeps reg main := by
      by_contra hnot
      rw [indexOfZ_neg_of_not_mem _ _ hnot] at hc
      omega
    rw [getDependencies, if_neg (fun hand => hc hand.2)]
    exact hmem

theorem mem_getDependencies_sound (reg : List RegEntry) (main d : String)
    (hd : d ∈ getDependencies reg main) :
    d = "dataset" ∨ d ∈ collectedDeps reg main := by
  rw [getDependencies] at hd
  split at hd
  · rcases List.mem_cons.mp hd with h | h
    · exact Or.inl h
    · exact Or.inr h
  · exact Or.inr hd

theorem mem_getDependencies_complete (reg : List RegEntry) (main d : String)
    (hd : d ∈ collectedDeps reg main) : d ∈ getDependencies reg main := by
  rw [getDependencies]
  split
  · exact List.mem_cons_of_mem _ hd
  · exact hd

/-- Counterexample to C3: the collected dependency list is not deduplicated.
With two subtypes of grid both declaring xAxis, getDependencies returns
dataset, xAxis, xAxis, which contains a duplicate. -/
theorem c3_counterexample : ¬ (getDependencies exRegDup "grid").Nodup := by
  decide

/-- C3 as amended: getDependencies(main) is the concatenation (not a
deduplicated union) over every constructor registered under main, in
registration order, of its static dependencies, each normalized to its main
component, with dataset force-prepended unless main is dataset or dataset
already occurs at a positive index: every result entry is dataset or the
normalization of some declared dependency, every declared dependency's
normalization appears, and dataset is always present for main other than
dataset. -/
theorem c3_getDependencies_characterization (reg : List RegEntry) (main : String) :
    (main ≠ "dataset" → "dataset" ∈ getDependencies reg main) ∧
    (∀ d ∈ getDependencies reg main, d = "dataset" ∨
      ∃ c ∈ getClassesByMainType reg main, ∃ t ∈ ctorDependencies c,
        parseClassTypeMain t = d) ∧
    (∀ c ∈ getClassesByMainType reg main, ∀ t ∈ ctorDependencies c,
      parseClassTypeMain t ∈ getDependencies reg main) := by
  refine ⟨?_, ?_, ?_⟩
  · intro h
    exact dataset_mem_getDependencies reg main h
  · intro d hd
    rcases mem_getDependencies_sound reg main d hd with h | h
    · exact Or.inl h
    · exact Or.inr ((mem_collectedDeps_iff reg main d).mp h)
  · intro c hc t ht
    exact mem_getDependencies_complete reg main _
      ((mem_collectedDeps_iff reg main _).mpr ⟨c, hc, t, ht, rfl⟩)

/-- Witness for C3's amended statement: on the duplicate-dependency registry,
dataset is a member of the result and so is the normalized declared
dependency xAxis. -/
theorem c3_witness :
    "dataset" ∈ getDependencies exRegDup "grid" ∧
    "xAxis" ∈ getDependencies exRegDup "grid" := by
  refine ⟨(c3_getDependencies_characterization exRegDup "grid").1 (by decide), ?_⟩
  exact (c3_getDependencies_characterization exRegDup "grid").2.2
    (Ctor.root none ["xAxis"] false) (by simp [getClassesByMainType, exRegDup])
    "xAxis" (by decide)

/-- Counterexample to C4: getDependencies("dataset") is not always free of
"dataset": when a constructor registered under dataset itself declares
dataset as a dependency, the declared entry is kept in the result. -/
theorem c4_counterexample : "dataset" ∈ getDependencies exRegC4 "dataset" := by
  decide

/-- C4 as amended: getDependencies("dataset") contains "dataset" only when a
constructor registered under dataset explicitly declares a dependency whose
main part is dataset (the implicit prepend never applies to dataset itself),
and for every main type other than dataset the result always contains
dataset, even when no registered subtype declares it. -/
theorem c4_dataset_invariant :
    (∀ reg : List RegEntry,
      (∀ c ∈ getClassesByMainType reg "dataset", ∀ t ∈ ctorDependencies c,
        parseClassTypeMain t ≠ "dataset") →
      "dataset" ∉ getDependencies reg "dataset") ∧
    (∀ (reg : List RegEntry) (main : String), main ≠ "dataset" →
      "dataset" ∈ getDependencies reg main) := by
  constructor
  · intro reg h hmem
    rw [getDependencies_dataset_eq] at hmem
    obtain ⟨c, hc, t, ht, hparse⟩ := (mem_collectedDeps_iff reg "dataset" "dataset").mp hmem
    exact h c hc t ht hparse
  · intro reg main h
    exact dataset_mem_getDependencies reg main h

/-- Witness for C4's amended statement: with nothing registered, dataset's own
dependency list stays free of dataset while any other main type gets it. -/
theorem c4_witness :
    "dataset" ∉ getDependencies ([] : List RegEntry) "dataset" ∧
    "dataset" ∈ getDependencies ([] : List RegEntry) "grid" := by
  constructor
  · exact c4_dataset_invariant.1 [] (by simp [getClassesByMainType])
  · exact c4_dataset_invariant.2 [] "grid" (by decide)

/-- Counterexample to C7: for an unregistered main type other than dataset the
result is not empty: the dataset hack still prepends dataset. -/
theorem c7_counterexample : getDependencies ([] : List RegEntry) "grid" ≠ [] := by
  decide

/-- C7 as amended: getDependencies on a main type with no registered
constructor does not fail, but the result is empty only for dataset itself;
for every other main type it is the singleton dataset list. -/
theorem c7_unregistered_main_type (reg : List RegEntry) (main : String)
    (h : getClassesByMainType reg main = []) :
    getDependencies reg main = if main = "dataset" then [] else ["dataset"] := by
  have hcd : collectedDeps reg main = [] := by
    simp [collectedDeps, h]
  by_cases hm : main = "dataset"
  · subst hm
    rw [getDependencies_dataset_eq, hcd, if_pos rfl]
  · rw [getDependencies, if_pos ⟨hm, by rw [hcd]; decide⟩, hcd, if_neg hm]

/-- Witness for C7's amended statement at the empty registry and main type
grid: the result is exactly the singleton dataset list. -/
theorem c7_witness : getDependencies ([] : List RegEntry) "grid" = ["dataset"] := by
  exact (c7_unregistered_main_type [] "grid" rfl).trans (by decide)
